import Mathlib

/-!
Verification of the eu-matcher match-scoring engine (src/app.py).

Shallow embedding conventions:
* Python floats are modelled as exact rationals (ℚ).
* `round(x, d)` is modelled as decimal rounding to `d` places over ℚ
  (`roundTo`); no claim here depends on tie-breaking at exact half-way
  points.
* `fuzz.token_set_ratio` is an external library function; it is modelled
  as an arbitrary parameter `ratio : String → String → ℕ`, with the
  contract from the spec (integer percentage, hence `ratio a b ≤ 100`)
  assumed where a bound on its output is needed.
* `Country` models the parsed view of a catalog record: `languages` is the
  output of `Country.langs()` (entries carry a name and a weight, bare
  string lists having been lowercased and given weight 1.0, and the
  `get("weight", 1.0)` default already applied), `sectorScores` the parsed
  `sector_scores` dict as an association list in insertion order, and
  `monthlyAvgTemps` the parsed `monthly_avg_temps` list (each JSON month
  dict supplies `min`/`max`, defaults -100/100 applied).
* `rank` models the scoring core of the `/recommend` route after form
  parsing: weight normalization, the monthly-temperature hard filter,
  per-country `compute_match`, and the final stable descending sort
  (Python's `list.sort(key=score, reverse=True)` is a stable sort, modelled
  by `List.mergeSort` with the relation "score is at least as large").
-/

/-- Python `str.lower()` restricted to the ASCII range, as used by the
source on language names (the catalog data is ASCII). -/
def lower (s : String) : String :=
  ⟨s.data.map Char.toLower⟩

/-- Decimal rounding to `d` places over ℚ, modelling Python `round(x, d)`. -/
def roundTo (d : ℕ) (x : ℚ) : ℚ :=
  ((round (x * 10 ^ d) : ℤ) : ℚ) / 10 ^ d

/-- Python `max` over a list of rationals (0 on the empty list; every use
site guards for emptiness exactly as the source does). -/
def listMax : List ℚ → ℚ
  | [] => 0
  | h :: t => t.foldl max h

/-- One entry of `Country.langs()`: a language name with its weight. -/
structure LangEntry where
  name : String
  weight : ℚ
deriving DecidableEq, Repr

/-- One entry of `Country.temps()`: a month's min/max temperature. -/
structure MonthTemp where
  min : ℚ
  max : ℚ
deriving DecidableEq, Repr

/-- Parsed view of one catalog record (src/app.py, class Country). -/
structure Country where
  name : String
  languages : List LangEntry
  sectorScores : List (String × ℚ)
  tolerance : ℚ
  costIndex : ℚ
  climate : ℚ
  monthlyAvgTemps : List MonthTemp
  description : String
deriving DecidableEq, Repr

/-- The five user preference weights (src/app.py lines 169-175). -/
structure Weights where
  skills : ℚ
  lang : ℚ
  tolerance : ℚ
  cost : ℚ
  climate : ℚ
deriving DecidableEq, Repr

/-- The five per-factor breakdown values produced by `compute_match`. -/
structure Breakdown where
  skills : ℚ
  lang : ℚ
  tolerance : ℚ
  cost : ℚ
  climate : ℚ
deriving DecidableEq, Repr

/-- src/app.py lines 60-66: best fuzzy similarity of `user_skill` against
`country_skills`, rescaled from the 0..100 integer range to 0..1. -/
def skill_score (ratio : String → String → ℕ) (user_skill : String)
    (country_skills : List String) : ℚ :=
  ((country_skills.foldl (fun best cs => max best (ratio user_skill cs)) 0 : ℕ) : ℚ) / 100

/-- src/app.py lines 99-102: per-skill best weighted sector similarity,
accumulated from 0 with `max`. -/
def best_sector_score (ratio : String → String → ℕ) (skill : String)
    (sectors : List (String × ℚ)) : ℚ :=
  sectors.foldl (fun best p => max best (skill_score ratio skill [p.1] * p.2)) 0

/-- src/app.py lines 109-113: all matched `prof * weight` products, in the
nested-loop order of the source (user languages outer, country languages
inner; the user name is compared against the lowercased country name). -/
def lang_scores_of (user_languages : List (String × ℤ))
    (country_langs : List LangEntry) : List ℚ :=
  user_languages.flatMap (fun ul =>
    country_langs.filterMap (fun cl =>
      if ul.1 = lower cl.name then some ((ul.2 : ℚ) * cl.weight) else none))

/-- src/app.py lines 127-133: the weighted total of the five breakdown
values. -/
def weighted_total (w : Weights) (b : Breakdown) : ℚ :=
  w.skills * b.skills + w.lang * b.lang + w.tolerance * b.tolerance +
    w.cost * b.cost + w.climate * b.climate

/-- src/app.py lines 96-105: the skills breakdown value (mean of the
per-skill best sector scores, rounded; 0.0 for an empty skill list). -/
def skills_value (ratio : String → String → ℕ) (user_skills : List String)
    (sectors : List (String × ℚ)) : ℚ :=
  let skill_scores := user_skills.map (fun skill => best_sector_score ratio skill sectors)
  if skill_scores.isEmpty then 0
  else roundTo 3 (skill_scores.sum / skill_scores.length)

/-- src/app.py lines 107-115: the lang breakdown value (maximum matched
`prof * weight` normalized by 3.0, rounded; 0.0 when nothing matches). -/
def lang_value (user_languages : List (String × ℤ)) (country_langs : List LangEntry) : ℚ :=
  let ls := lang_scores_of user_languages country_langs
  roundTo 3 (if ls.isEmpty then 0 else listMax ls / 3)

/-- src/app.py lines 92-138, `compute_match`: the composite scorer.
Returns `(final_score, breakdown)`. -/
def compute_match (ratio : String → String → ℕ) (user_skills : List String)
    (user_languages : List (String × ℤ)) (country : Country)
    (weights : Weights) : ℚ × Breakdown :=
  let b : Breakdown :=
    { skills := skills_value ratio user_skills country.sectorScores
      lang := lang_value user_languages country.languages
      tolerance := roundTo 3 country.tolerance
      cost := roundTo 3 (1 - country.costIndex)
      climate := roundTo 3 ((country.climate + 1) / 2) }
  let ws := min (weighted_total weights b) 1
  (roundTo 2 (ws * 100), b)

/-- src/app.py lines 195-199: a country passes the monthly-temperature
hard filter when some month's range lies inside the user's bounds. -/
def fits_temp (min_temp max_temp : ℚ) (c : Country) : Bool :=
  c.monthlyAvgTemps.any (fun m => decide (min_temp ≤ m.min) && decide (m.max ≤ max_temp))

/-- Sum of the five weights (src/app.py line 178). -/
def total_weight (w : Weights) : ℚ :=
  w.skills + w.lang + w.tolerance + w.cost + w.climate

/-- src/app.py lines 177-181: divide every weight by the sum when the sum
exceeds 1, otherwise leave the weights unscaled. -/
def normalize_weights (w : Weights) : Weights :=
  let t := total_weight w
  if 1 < t then
    { skills := w.skills / t, lang := w.lang / t, tolerance := w.tolerance / t,
      cost := w.cost / t, climate := w.climate / t }
  else w

/-- One entry of the ranked output (src/app.py lines 204-209). -/
structure MatchResult where
  name : String
  score : ℚ
  breakdown : Breakdown
  description : String
deriving DecidableEq, Repr

/-- src/app.py lines 203-209: the result record appended for one scored
country. -/
def mkResult (ratio : String → String → ℕ) (user_skills : List String)
    (user_languages : List (String × ℤ)) (weights : Weights)
    (c : Country) : MatchResult :=
  let r := compute_match ratio user_skills user_languages c weights
  { name := c.name, score := r.1, breakdown := r.2, description := c.description }

/-- src/app.py lines 187-209: the unsorted result list, in catalog order,
of the countries that pass the temperature filter. -/
def scored (ratio : String → String → ℕ) (user_skills : List String)
    (user_languages : List (String × ℤ)) (weights : Weights)
    (min_temp max_temp : ℚ) (catalog : List Country) : List MatchResult :=
  ((catalog.filter (fits_temp min_temp max_temp)).map
    (mkResult ratio user_skills user_languages (normalize_weights weights)))

/-- src/app.py lines 177-210: the scoring core of the `/recommend` route:
normalize weights, filter, score, and stably sort descending by score. -/
def rank (ratio : String → String → ℕ) (user_skills : List String)
    (user_languages : List (String × ℤ)) (weights : Weights)
    (min_temp max_temp : ℚ) (catalog : List Country) : List MatchResult :=
  (scored ratio user_skills user_languages weights min_temp max_temp catalog).mergeSort
    (fun a b => decide (b.score ≤ a.score))

/-- Claim C4's wording of the lang score (spec §4.3): the matched
`proficiency * entryWeight` products, with a case-insensitive name
comparison. -/
def lang_matches (user_languages : List (String × ℤ))
    (country_langs : List LangEntry) : List ℚ :=
  user_languages.flatMap (fun ul =>
    country_langs.filterMap (fun cl =>
      if lower ul.1 = lower cl.name then some ((ul.2 : ℚ) * cl.weight) else none))

/-- Claim C4's wording of the lang breakdown value: the maximum matched
product divided by 3.0 and rounded to 3 decimals, 0.0 when no name
matches. -/
def lang_claimed (user_languages : List (String × ℤ))
    (country_langs : List LangEntry) : ℚ :=
  if lang_matches user_languages country_langs = [] then 0
  else roundTo 3 (listMax (lang_matches user_languages country_langs) / 3)

/-- Claim C5's wording of the skills breakdown value (spec §4.2): the
average over user skills of the maximum over `(sectorName, sectorWeight)`
pairs of `similarity * sectorWeight`, rounded to 3 decimals; 0.0 for an
empty skill list, with no fallback of any kind. -/
def skills_claimed (ratio : String → String → ℕ) (user_skills : List String)
    (sectors : List (String × ℚ)) : ℚ :=
  if user_skills = [] then 0
  else roundTo 3 ((user_skills.map (fun s =>
    listMax (sectors.map (fun q => (ratio s q.1 : ℚ) / 100 * q.2)))).sum /
      user_skills.length)

/-! ## Helper lemmas -/

lemma round_mono_rat {x y : ℚ} (h : x ≤ y) : round x ≤ round y := by
  rw [round_eq, round_eq]
  exact Int.floor_le_floor (by linarith)

lemma roundTo_int_le {d : ℕ} {n : ℤ} {x : ℚ} (h : (n : ℚ) ≤ x) :
    (n : ℚ) ≤ roundTo d x := by
  unfold roundTo
  rw [le_div_iff₀ (by positivity : (0 : ℚ) < 10 ^ d)]
  have h1 : ((n * 10 ^ d : ℤ) : ℚ) ≤ x * 10 ^ d := by
    push_cast
    exact mul_le_mul_of_nonneg_right h (by positivity)
  have h2 : (n * 10 ^ d : ℤ) ≤ round (x * 10 ^ d) := by
    calc (n * 10 ^ d : ℤ) = round ((n * 10 ^ d : ℤ) : ℚ) := (round_intCast _).symm
      _ ≤ round (x * 10 ^ d) := round_mono_rat h1
  calc (n : ℚ) * 10 ^ d = ((n * 10 ^ d : ℤ) : ℚ) := by push_cast; ring
    _ ≤ ((round (x * 10 ^ d) : ℤ) : ℚ) := by exact_mod_cast h2

lemma roundTo_le_int {d : ℕ} {n : ℤ} {x : ℚ} (h : x ≤ (n : ℚ)) :
    roundTo d x ≤ (n : ℚ) := by
  unfold roundTo
  rw [div_le_iff₀ (by positivity : (0 : ℚ) < 10 ^ d)]
  have h1 : x * 10 ^ d ≤ ((n * 10 ^ d : ℤ) : ℚ) := by
    push_cast
    exact mul_le_mul_of_nonneg_right h (by positivity)
  have h2 : round (x * 10 ^ d) ≤ (n * 10 ^ d : ℤ) := by
    calc round (x * 10 ^ d) ≤ round ((n * 10 ^ d : ℤ) : ℚ) := round_mono_rat h1
      _ = n * 10 ^ d := round_intCast _
  calc ((round (x * 10 ^ d) : ℤ) : ℚ) ≤ ((n * 10 ^ d : ℤ) : ℚ) := by exact_mod_cast h2
    _ = (n : ℚ) * 10 ^ d := by push_cast; ring

lemma roundTo_zero (d : ℕ) : roundTo d 0 = 0 := by
  simp [roundTo]

lemma le_foldl_max (l : List ℚ) (a : ℚ) : a ≤ l.foldl max a := by
  induction l generalizing a with
  | nil => exact le_refl a
  | cons h t ih =>
    calc a ≤ max a h := le_max_left a h
      _ ≤ t.foldl max (max a h) := ih (max a h)

lemma mem_le_foldl_max {x : ℚ} {l : List ℚ} (a : ℚ) (hx : x ∈ l) :
    x ≤ l.foldl max a := by
  induction l generalizing a with
  | nil => cases hx
  | cons h t ih =>
    rcases List.mem_cons.mp hx with rfl | hmem
    · exact le_trans (le_max_right a x) (le_foldl_max t (max a x))
    · exact ih (max a h) hmem

lemma foldl_max_le {l : List ℚ} {a b : ℚ} (ha : a ≤ b) (h : ∀ x ∈ l, x ≤ b) :
    l.foldl max a ≤ b := by
  induction l generalizing a with
  | nil => exact ha
  | cons hh t ih =>
    exact ih (max_le ha (h hh (List.mem_cons_self hh t)))
      (fun x hx => h x (List.mem_cons_of_mem hh hx))

lemma foldl_max_mem (l : List ℚ) (a : ℚ) : l.foldl max a = a ∨ l.foldl max a ∈ l := by
  induction l generalizing a with
  | nil => exact Or.inl rfl
  | cons h t ih =>
    rcases ih (max a h) with heq | hmem
    · rcases le_total a h with hle | hle
      · right
        rw [List.foldl_cons, heq, max_eq_right hle]
        exact List.mem_cons_self h t
      · left
        rw [List.foldl_cons, heq, max_eq_left hle]
    · right
      exact List.mem_cons_of_mem h hmem

lemma listMax_mem {l : List ℚ} (h : l ≠ []) : listMax l ∈ l := by
  cases l with
  | nil => exact absurd rfl h
  | cons a t =>
    rcases foldl_max_mem t a with heq | hmem
    · show t.foldl max a ∈ a :: t
      rw [heq]
      exact List.mem_cons_self a t
    · exact List.mem_cons_of_mem a hmem

lemma le_listMax {x : ℚ} {l : List ℚ} (hx : x ∈ l) : x ≤ listMax l := by
  cases l with
  | nil => cases hx
  | cons a t =>
    rcases List.mem_cons.mp hx with rfl | hmem
    · exact le_foldl_max t x
    · exact mem_le_foldl_max a hmem

lemma listMax_le {l : List ℚ} {b : ℚ} (h : l ≠ []) (hb : ∀ x ∈ l, x ≤ b) :
    listMax l ≤ b :=
  hb _ (listMax_mem h)

lemma listMax_perm {l₁ l₂ : List ℚ} (p : l₁.Perm l₂) : listMax l₁ = listMax l₂ := by
  cases l₁ with
  | nil =>
    rw [(List.Perm.nil_eq p).symm]
  | cons a t =>
    have h₁ : (a :: t) ≠ ([] : List ℚ) := List.cons_ne_nil a t
    have h₂ : l₂ ≠ [] := by
      intro hnil
      subst hnil
      exact h₁ p.eq_nil
    exact le_antisymm (le_listMax (p.subset (listMax_mem h₁)))
      (le_listMax (p.symm.subset (listMax_mem h₂)))

lemma listMax_append {l₁ l₂ : List ℚ} (h : ∀ x ∈ l₂, x ∈ l₁) :
    listMax (l₁ ++ l₂) = listMax l₁ := by
  cases l₁ with
  | nil =>
    have : l₂ = [] := List.eq_nil_iff_forall_not_mem.mpr
      (fun x hx => (List.not_mem_nil x) (h x hx))
    rw [this]
    rfl
  | cons a t =>
    apply le_antisymm
    · apply listMax_le (by simp)
      intro x hx
      rcases List.mem_append.mp hx with h1 | h2
      · exact le_listMax h1
      · exact le_listMax (h x h2)
    · exact le_listMax (List.mem_append_left _ (listMax_mem (List.cons_ne_nil a t)))

lemma list_sum_nonneg {l : List ℚ} (h : ∀ x ∈ l, 0 ≤ x) : 0 ≤ l.sum := by
  induction l with
  | nil => simp
  | cons a t ih =>
    rw [List.sum_cons]
    exact add_nonneg (h a (List.mem_cons_self a t))
      (ih (fun x hx => h x (List.mem_cons_of_mem a hx)))

lemma list_sum_le_length {l : List ℚ} (h : ∀ x ∈ l, x ≤ 1) :
    l.sum ≤ (l.length : ℚ) := by
  induction l with
  | nil => simp
  | cons a t ih =>
    rw [List.sum_cons, List.length_cons]
    push_cast
    have h1 := h a (List.mem_cons_self a t)
    have h2 := ih (fun x hx => h x (List.mem_cons_of_mem a hx))
    linarith

lemma nat_foldl_max_le {f : String → ℕ} {l : List String} {a c : ℕ} (ha : a ≤ c)
    (h : ∀ x ∈ l, f x ≤ c) : l.foldl (fun best cs => max best (f cs)) a ≤ c := by
  induction l generalizing a with
  | nil => exact ha
  | cons b t ih =>
    exact ih (max_le ha (h b (List.mem_cons_self b t)))
      (fun x hx => h x (List.mem_cons_of_mem b hx))

lemma skill_score_nonneg (ratio : String → String → ℕ) (s : String)
    (l : List String) : 0 ≤ skill_score ratio s l := by
  unfold skill_score
  positivity

lemma skill_score_le_one (ratio : String → String → ℕ) (s : String)
    (l : List String) (hr : ∀ a b, ratio a b ≤ 100) : skill_score ratio s l ≤ 1 := by
  unfold skill_score
  rw [div_le_one (by norm_num)]
  have h := nat_foldl_max_le (f := fun cs => ratio s cs) (l := l) (a := 0) (c := 100)
    (Nat.zero_le 100) (fun x _ => hr s x)
  exact_mod_cast h

lemma skill_score_single (ratio : String → String → ℕ) (s t : String) :
    skill_score ratio s [t] = (ratio s t : ℚ) / 100 := by
  simp [skill_score, Nat.zero_max]

lemma foldl_max_f_eq {α : Type} (f : α → ℚ) (l : List α) (h : ∀ p ∈ l, 0 ≤ f p) :
    l.foldl (fun b p => max b (f p)) 0 = listMax (l.map f) := by
  rw [← List.foldl_map]
  cases l with
  | nil => rfl
  | cons a t =>
    have h0 : max 0 (f a) = f a := max_eq_right (h a (List.mem_cons_self a t))
    simp only [List.map_cons, List.foldl_cons, h0, listMax]

lemma best_sector_score_nonneg (ratio : String → String → ℕ) (s : String)
    (sectors : List (String × ℚ)) : 0 ≤ best_sector_score ratio s sectors := by
  unfold best_sector_score
  rw [← List.foldl_map]
  exact le_foldl_max _ 0

lemma best_sector_score_le_one (ratio : String → String → ℕ) (s : String)
    (sectors : List (String × ℚ)) (hr : ∀ a b, ratio a b ≤ 100)
    (hs : ∀ p ∈ sectors, 0 ≤ p.2 ∧ p.2 ≤ 1) : best_sector_score ratio s sectors ≤ 1 := by
  unfold best_sector_score
  rw [← List.foldl_map]
  apply foldl_max_le (by norm_num)
  intro x hx
  rcases List.mem_map.mp hx with ⟨p, hp, rfl⟩
  exact mul_le_one₀ (skill_score_le_one ratio s [p.1] hr) (hs p hp).1 (hs p hp).2

lemma lang_scores_mem {ul : List (String × ℤ)} {langs : List LangEntry} {x : ℚ}
    (hx : x ∈ lang_scores_of ul langs) :
    ∃ p ∈ ul, ∃ e ∈ langs, x = (p.2 : ℚ) * e.weight := by
  simp only [lang_scores_of, List.mem_flatMap, List.mem_filterMap] at hx
  obtain ⟨p, hp, e, he, hif⟩ := hx
  by_cases hc : p.1 = lower e.name
  · rw [if_pos hc, Option.some.injEq] at hif
    exact ⟨p, hp, e, he, hif.symm⟩
  · rw [if_neg hc] at hif
    cases hif

lemma skills_value_bounds (ratio : String → String → ℕ) (sk : List String)
    (sectors : List (String × ℚ)) (hr : ∀ a b, ratio a b ≤ 100)
    (hs : ∀ p ∈ sectors, 0 ≤ p.2 ∧ p.2 ≤ 1) :
    0 ≤ skills_value ratio sk sectors ∧ skills_value ratio sk sectors ≤ 1 := by
  unfold skills_value
  by_cases hempty : (sk.map (fun skill => best_sector_score ratio skill sectors)).isEmpty
  · rw [if_pos hempty]
    norm_num
  · rw [if_neg hempty]
    have hne : sk.map (fun skill => best_sector_score ratio skill sectors) ≠ [] :=
      fun hnil => hempty (by rw [hnil]; rfl)
    have hlen : 0 < (sk.map (fun skill => best_sector_score ratio skill sectors)).length :=
      List.length_pos.mpr hne
    set l := sk.map (fun skill => best_sector_score ratio skill sectors) with hl
    have hmem : ∀ x ∈ l, 0 ≤ x ∧ x ≤ 1 := by
      intro x hx
      rcases List.mem_map.mp hx with ⟨s, _, rfl⟩
      exact ⟨best_sector_score_nonneg ratio s sectors,
        best_sector_score_le_one ratio s sectors hr hs⟩
    have hsum0 : 0 ≤ l.sum := list_sum_nonneg (fun x hx => (hmem x hx).1)
    have hsum1 : l.sum ≤ (l.length : ℚ) := list_sum_le_length (fun x hx => (hmem x hx).2)
    have hlenq : (0 : ℚ) < l.length := by exact_mod_cast hlen
    constructor
    · have : (0 : ℚ) ≤ l.sum / l.length := div_nonneg hsum0 (le_of_lt hlenq)
      calc (0 : ℚ) = ((0 : ℤ) : ℚ) := by norm_num
        _ ≤ roundTo 3 (l.sum / l.length) := roundTo_int_le (by exact_mod_cast this)
    · have : l.sum / l.length ≤ 1 := (div_le_one hlenq).mpr hsum1
      calc roundTo 3 (l.sum / l.length) ≤ ((1 : ℤ) : ℚ) := roundTo_le_int (by exact_mod_cast this)
        _ = 1 := by norm_num

lemma lang_value_bounds (ul : List (String × ℤ)) (langs : List LangEntry)
    (hw : ∀ e ∈ langs, 0 ≤ e.weight ∧ e.weight ≤ 1)
    (hp : ∀ p ∈ ul, 0 ≤ p.2 ∧ p.2 ≤ 3) :
    0 ≤ lang_value ul langs ∧ lang_value ul langs ≤ 1 := by
  simp only [lang_value]
  by_cases hempty : (lang_scores_of ul langs).isEmpty
  · rw [if_pos hempty, roundTo_zero]
    norm_num
  · rw [if_neg hempty]
    have hne : lang_scores_of ul langs ≠ [] := by
      intro hnil
      exact hempty (by rw [hnil]; rfl)
    have hmem : ∀ x ∈ lang_scores_of ul langs, 0 ≤ x ∧ x ≤ 3 := by
      intro x hx
      obtain ⟨p, hpm, e, hem, rfl⟩ := lang_scores_mem hx
      have h1 := (hp p hpm).1
      have h2 := (hp p hpm).2
      have h3 := (hw e hem).1
      have h4 := (hw e hem).2
      have hpq1 : (0 : ℚ) ≤ (p.2 : ℚ) := by exact_mod_cast h1
      have hpq2 : (p.2 : ℚ) ≤ 3 := by exact_mod_cast h2
      constructor
      · exact mul_nonneg hpq1 h3
      · calc (p.2 : ℚ) * e.weight ≤ 3 * 1 := by
              apply mul_le_mul hpq2 h4 h3 (by norm_num)
          _ = 3 := by norm_num
    have hmax := listMax_mem hne
    have h0 : 0 ≤ listMax (lang_scores_of ul langs) := (hmem _ hmax).1
    have h3 : listMax (lang_scores_of ul langs) ≤ 3 := (hmem _ hmax).2
    constructor
    · calc (0 : ℚ) = ((0 : ℤ) : ℚ) := by norm_num
        _ ≤ roundTo 3 (listMax (lang_scores_of ul langs) / 3) :=
          roundTo_int_le (by push_cast; positivity)
    · calc roundTo 3 (listMax (lang_scores_of ul langs) / 3) ≤ ((1 : ℤ) : ℚ) :=
          roundTo_le_int (by push_cast; linarith [(div_le_one (by norm_num : (0:ℚ) < 3)).mpr h3])
        _ = 1 := by norm_num

/-! ## Claim theorems -/

/-- C1: the claim says a country with absent or empty `monthlyAvgTemps`
must NOT be excluded by the temperature filter. The code does the
opposite: `fits_temp` stays `False` when there is no month to inspect, so
`recommend` skips such countries for every temperature bound. This theorem
evaluates the code at the failing situation: an undated country never
reaches the ranked output. -/
theorem c1_undated_country_excluded (ratio : String → String → ℕ)
    (sk : List String) (ul : List (String × ℤ)) (w : Weights) (mn mx : ℚ)
    (c : Country) (h : c.monthlyAvgTemps = []) :
    fits_temp mn mx c = false ∧ rank ratio sk ul w mn mx [c] = [] := by
  have hf : fits_temp mn mx c = false := by simp [fits_temp, h]
  refine ⟨hf, ?_⟩
  simp [rank, scored, hf]

/-- C1 witness: a Testland-like country without monthly data is dropped
under the default bounds (-10, 40). -/
theorem c1_undated_country_excluded_witness :
    fits_temp (-10) 40
      { name := "Testland",
        languages := [{ name := "english", weight := 1 }, { name := "german", weight := 1 }],
        sectorScores := [("tech", 4/5)], tolerance := 4/5, costIndex := 2/5,
        climate := 1/10, monthlyAvgTemps := [], description := "" } = false ∧
    rank (fun a b => if a = b then 100 else 0) ["python"] [("english", 3)]
      ⟨3/10, 3/10, 1/5, 1/10, 1/10⟩ (-10) 40
      [{ name := "Testland",
         languages := [{ name := "english", weight := 1 }, { name := "german", weight := 1 }],
         sectorScores := [("tech", 4/5)], tolerance := 4/5, costIndex := 2/5,
         climate := 1/10, monthlyAvgTemps := [], description := "" }] = [] :=
  c1_undated_country_excluded (fun a b => if a = b then 100 else 0) ["python"]
    [("english", 3)] ⟨3/10, 3/10, 1/5, 1/10, 1/10⟩ (-10) 40 _ rfl

/-- C9: ranking is deterministic. The embedding of the scoring core is a
pure function of the fuzzy matcher, the user input and the catalog, so two
invocations on identical inputs return identical output sequences
(countries, order, scores and breakdowns alike). -/
theorem c9_rank_deterministic (ratio : String → String → ℕ)
    (sk : List String) (ul : List (String × ℤ)) (w : Weights) (mn mx : ℚ)
    (catalog₁ catalog₂ : List Country) (h : catalog₁ = catalog₂) :
    rank ratio sk ul w mn mx catalog₁ = rank ratio sk ul w mn mx catalog₂ := by
  rw [h]

/-- C9 witness: two invocations on the same concrete catalog agree. -/
theorem c9_rank_deterministic_witness :
    rank (fun a b => if a = b then 100 else 0) ["python"] [("english", 3)]
      ⟨3/10, 3/10, 1/5, 1/10, 1/10⟩ (-10) 40
      [{ name := "Testland",
         languages := [{ name := "english", weight := 1 }],
         sectorScores := [("tech", 4/5)], tolerance := 4/5, costIndex := 2/5,
         climate := 1/10, monthlyAvgTemps := [{ min := 15, max := 25 }], description := "" }] =
    rank (fun a b => if a = b then 100 else 0) ["python"] [("english", 3)]
      ⟨3/10, 3/10, 1/5, 1/10, 1/10⟩ (-10) 40
      [{ name := "Testland",
         languages := [{ name := "english", weight := 1 }],
         sectorScores := [("tech", 4/5)], tolerance := 4/5, costIndex := 2/5,
         climate := 1/10, monthlyAvgTemps := [{ min := 15, max := 25 }], description := "" }] :=
  c9_rank_deterministic (fun a b => if a = b then 100 else 0) ["python"] [("english", 3)]
    ⟨3/10, 3/10, 1/5, 1/10, 1/10⟩ (-10) 40 _ _ rfl

/-- C6 (amended): if the raw weight sum exceeds 1, every weight is divided
by the sum and the effective weights then sum to exactly 1 (exactly, over
rationals); if the raw sum is at most 1, the weights are used unscaled, and
for non-negative weights the achievable weighted sum is bounded by the raw
sum (so the pre-rounding score is bounded by 100 times the raw sum; it can
still reach exactly 100 when the raw sum is 1). -/
theorem c6_weight_normalization (w : Weights) :
    (total_weight w ≤ 1 → normalize_weights w = w) ∧
    (1 < total_weight w →
      normalize_weights w =
        { skills := w.skills / total_weight w, lang := w.lang / total_weight w,
          tolerance := w.tolerance / total_weight w, cost := w.cost / total_weight w,
          climate := w.climate / total_weight w } ∧
      total_weight (normalize_weights w) = 1) ∧
    (0 ≤ w.skills → 0 ≤ w.lang → 0 ≤ w.tolerance → 0 ≤ w.cost → 0 ≤ w.climate →
      ∀ b : Breakdown, b.skills ≤ 1 → b.lang ≤ 1 → b.tolerance ≤ 1 → b.cost ≤ 1 →
        b.climate ≤ 1 → weighted_total w b ≤ total_weight w) := by
  refine ⟨?_, ?_, ?_⟩
  · intro h
    simp only [normalize_weights]
    rw [if_neg (not_lt.mpr h)]
  · intro h
    have ht : total_weight w ≠ 0 := by linarith
    constructor
    · simp only [normalize_weights]
      rw [if_pos h]
    · simp only [normalize_weights]
      rw [if_pos h]
      show w.skills / total_weight w + w.lang / total_weight w +
        w.tolerance / total_weight w + w.cost / total_weight w +
        w.climate / total_weight w = 1
      rw [div_add_div_same, div_add_div_same, div_add_div_same, div_add_div_same]
      exact div_self ht
  · intro h1 h2 h3 h4 h5 b hb1 hb2 hb3 hb4 hb5
    unfold weighted_total total_weight
    have g1 : w.skills * b.skills ≤ w.skills := mul_le_of_le_one_right h1 hb1
    have g2 : w.lang * b.lang ≤ w.lang := mul_le_of_le_one_right h2 hb2
    have g3 : w.tolerance * b.tolerance ≤ w.tolerance := mul_le_of_le_one_right h3 hb3
    have g4 : w.cost * b.cost ≤ w.cost := mul_le_of_le_one_right h4 hb4
    have g5 : w.climate * b.climate ≤ w.climate := mul_le_of_le_one_right h5 hb5
    linarith

/-- C6 witness: the weights (1, 0, 0, 0, 0) with raw sum 2, after doubling
to ⟨2, 0, 0, 0, 0⟩, get scaled so that the effective sum is exactly 1;
weights summing to at most 1 stay unscaled. -/
theorem c6_weight_normalization_witness :
    normalize_weights ⟨3/10, 3/10, 1/5, 1/10, 1/10⟩ = ⟨3/10, 3/10, 1/5, 1/10, 1/10⟩ ∧
    total_weight (normalize_weights ⟨2, 2, 0, 0, 0⟩) = 1 := by
  constructor
  · exact (c6_weight_normalization ⟨3/10, 3/10, 1/5, 1/10, 1/10⟩).1
      (by norm_num [total_weight])
  · exact ((c6_weight_normalization ⟨2, 2, 0, 0, 0⟩).2.1
      (by norm_num [total_weight])).2

/-- C6 counterexample: the claim's conclusion "if the raw sum is at most
1.0 ... the achievable maximum final score shrinks below 100" is false at
raw sum exactly 1: the weight map (1,0,0,0,0) has raw sum 1 (so it is
used unscaled), yet a country whose skills breakdown is 1 reaches a final
score of exactly 100. -/
theorem c6_counterexample :
    total_weight ⟨1, 0, 0, 0, 0⟩ ≤ 1 ∧
    normalize_weights ⟨1, 0, 0, 0, 0⟩ = ⟨1, 0, 0, 0, 0⟩ ∧
    (compute_match (fun a b => if a = b then 100 else 0) ["tech"] []
      { name := "Techland", languages := [], sectorScores := [("tech", 1)],
        tolerance := 0, costIndex := 1, climate := 0,
        monthlyAvgTemps := [{ min := 15, max := 25 }], description := "" }
      ⟨1, 0, 0, 0, 0⟩).1 = 100 := by
  refine ⟨by norm_num [total_weight], by norm_num [normalize_weights, total_weight], ?_⟩
  have hb : best_sector_score (fun a b => if a = b then 100 else 0) "tech" [("tech", 1)] = 1 := by
    norm_num [best_sector_score, skill_score]
  norm_num [compute_match, skills_value, lang_value, lang_scores_of, hb, listMax,
    roundTo, round_eq, weighted_total]

lemma rank_le_trans : ∀ (a b c : MatchResult),
    (fun a b : MatchResult => decide (b.score ≤ a.score)) a b →
    (fun a b : MatchResult => decide (b.score ≤ a.score)) b c →
    (fun a b : MatchResult => decide (b.score ≤ a.score)) a c := by
  intro a b c hab hbc
  simp only [decide_eq_true_eq] at hab hbc ⊢
  exact le_trans hbc hab

lemma rank_le_total : ∀ (a b : MatchResult),
    (fun a b : MatchResult => decide (b.score ≤ a.score)) a b ||
    (fun a b : MatchResult => decide (b.score ≤ a.score)) b a := by
  intro a b
  simp only [Bool.or_eq_true, decide_eq_true_eq]
  exact le_total b.score a.score

/-- C7: the ranked output is sorted non-increasing by `finalScore`, and the
sort is stable: two entries with equal score that appear in a given order
in the unsorted scored list (which is in catalog iteration order) appear in
the same order in the ranked output. -/
theorem c7_rank_sorted_stable (ratio : String → String → ℕ)
    (sk : List String) (ul : List (String × ℤ)) (w : Weights) (mn mx : ℚ)
    (catalog : List Country) :
    (rank ratio sk ul w mn mx catalog).Pairwise
      (fun a b : MatchResult => b.score ≤ a.score) ∧
    (∀ a b : MatchResult, a.score = b.score →
      List.Sublist [a, b] (scored ratio sk ul w mn mx catalog) →
      List.Sublist [a, b] (rank ratio sk ul w mn mx catalog)) := by
  constructor
  · have h := List.sorted_mergeSort rank_le_trans rank_le_total
      (scored ratio sk ul w mn mx catalog)
    rw [rank]
    exact h.imp (fun hab => by simpa using hab)
  · intro a b heq hsub
    rw [rank]
    exact List.pair_sublist_mergeSort rank_le_trans rank_le_total
      (by simp [heq]) hsub

/-- C7 witness: two equal-score countries (identical attributes, different
names) keep their catalog order in the ranked output. -/
theorem c7_rank_sorted_stable_witness :
    List.Sublist
      [mkResult (fun a b => if a = b then 100 else 0) ["python"] [("english", 3)]
         (normalize_weights ⟨3/10, 3/10, 1/5, 1/10, 1/10⟩)
         { name := "Alphaland", languages := [{ name := "english", weight := 1 }],
           sectorScores := [("tech", 4/5)], tolerance := 4/5, costIndex := 2/5,
           climate := 1/10, monthlyAvgTemps := [{ min := 15, max := 25 }],
           description := "" },
       mkResult (fun a b => if a = b then 100 else 0) ["python"] [("english", 3)]
         (normalize_weights ⟨3/10, 3/10, 1/5, 1/10, 1/10⟩)
         { name := "Betaland", languages := [{ name := "english", weight := 1 }],
           sectorScores := [("tech", 4/5)], tolerance := 4/5, costIndex := 2/5,
           climate := 1/10, monthlyAvgTemps := [{ min := 15, max := 25 }],
           description := "" }]
      (rank (fun a b => if a = b then 100 else 0) ["python"] [("english", 3)]
        ⟨3/10, 3/10, 1/5, 1/10, 1/10⟩ (-10) 40
        [{ name := "Alphaland", languages := [{ name := "english", weight := 1 }],
           sectorScores := [("tech", 4/5)], tolerance := 4/5, costIndex := 2/5,
           climate := 1/10, monthlyAvgTemps := [{ min := 15, max := 25 }],
           description := "" },
         { name := "Betaland", languages := [{ name := "english", weight := 1 }],
           sectorScores := [("tech", 4/5)], tolerance := 4/5, costIndex := 2/5,
           climate := 1/10, monthlyAvgTemps := [{ min := 15, max := 25 }],
           description := "" }]) := by
  apply (c7_rank_sorted_stable (fun a b => if a = b then 100 else 0) ["python"]
    [("english", 3)] ⟨3/10, 3/10, 1/5, 1/10, 1/10⟩ (-10) 40 _).2
  · rfl
  · have hs : scored (fun a b => if a = b then 100 else 0) ["python"] [("english", 3)]
        ⟨3/10, 3/10, 1/5, 1/10, 1/10⟩ (-10) 40
        [{ name := "Alphaland", languages := [{ name := "english", weight := 1 }],
           sectorScores := [("tech", 4/5)], tolerance := 4/5, costIndex := 2/5,
           climate := 1/10, monthlyAvgTemps := [{ min := 15, max := 25 }],
           description := "" },
         { name := "Betaland", languages := [{ name := "english", weight := 1 }],
           sectorScores := [("tech", 4/5)], tolerance := 4/5, costIndex := 2/5,
           climate := 1/10, monthlyAvgTemps := [{ min := 15, max := 25 }],
           description := "" }] =
      [mkResult (fun a b => if a = b then 100 else 0) ["python"] [("english", 3)]
         (normalize_weights ⟨3/10, 3/10, 1/5, 1/10, 1/10⟩)
         { name := "Alphaland", languages := [{ name := "english", weight := 1 }],
           sectorScores := [("tech", 4/5)], tolerance := 4/5, costIndex := 2/5,
           climate := 1/10, monthlyAvgTemps := [{ min := 15, max := 25 }],
           description := "" },
       mkResult (fun a b => if a = b then 100 else 0) ["python"] [("english", 3)]
         (normalize_weights ⟨3/10, 3/10, 1/5, 1/10, 1/10⟩)
         { name := "Betaland", languages := [{ name := "english", weight := 1 }],
           sectorScores := [("tech", 4/5)], tolerance := 4/5, costIndex := 2/5,
           climate := 1/10, monthlyAvgTemps := [{ min := 15, max := 25 }],
           description := "" }] := by
      norm_num [scored, fits_temp]
    rw [hs]

/-- C3: every entry of the ranked output stems from a catalog country with
at least one month whose range lies within the user's bounds; a country
whose every month lies outside the bounds produces no output entry at all
(the filter is a hard exclusion, not a score penalty). -/
theorem c3_temp_hard_filter (ratio : String → String → ℕ)
    (sk : List String) (ul : List (String × ℤ)) (w : Weights) (mn mx : ℚ)
    (catalog : List Country) (r : MatchResult)
    (hr : r ∈ rank ratio sk ul w mn mx catalog) :
    ∃ c ∈ catalog, r = mkResult ratio sk ul (normalize_weights w) c ∧
      ∃ m ∈ c.monthlyAvgTemps, mn ≤ m.min ∧ m.max ≤ mx := by
  rw [rank, List.mem_mergeSort, scored, List.mem_map] at hr
  obtain ⟨c, hc, rfl⟩ := hr
  rw [List.mem_filter] at hc
  refine ⟨c, hc.1, rfl, ?_⟩
  have hfit := hc.2
  simp only [fits_temp, List.any_eq_true, Bool.and_eq_true, decide_eq_true_eq] at hfit
  obtain ⟨m, hm, h1, h2⟩ := hfit
  exact ⟨m, hm, h1, h2⟩

/-- C3 witness: with bounds (10, 30), a catalog holding one warm country
and one country whose every month is (-20, -5): the single output entry
stems from the warm country, which has an eligible month; the cold country
yields no entry. -/
theorem c3_temp_hard_filter_witness :
    ∃ c ∈ [{ name := "Warmland", languages := [{ name := "english", weight := 1 }],
             sectorScores := [("tech", 4/5)], tolerance := 4/5, costIndex := 2/5,
             climate := 1/10, monthlyAvgTemps := [{ min := 15, max := 25 }],
             description := "" },
           { name := "Coldland", languages := [{ name := "english", weight := 1 }],
             sectorScores := [("tech", 4/5)], tolerance := 4/5, costIndex := 2/5,
             climate := -1/2,
             monthlyAvgTemps := [{ min := -20, max := -5 }, { min := -20, max := -5 }],
             description := "" }],
      mkResult (fun a b => if a = b then 100 else 0) ["python"] [("english", 3)]
        (normalize_weights ⟨3/10, 3/10, 1/5, 1/10, 1/10⟩)
        { name := "Warmland", languages := [{ name := "english", weight := 1 }],
          sectorScores := [("tech", 4/5)], tolerance := 4/5, costIndex := 2/5,
          climate := 1/10, monthlyAvgTemps := [{ min := 15, max := 25 }],
          description := "" } =
        mkResult (fun a b => if a = b then 100 else 0) ["python"] [("english", 3)]
          (normalize_weights ⟨3/10, 3/10, 1/5, 1/10, 1/10⟩) c ∧
      ∃ m ∈ c.monthlyAvgTemps, (10 : ℚ) ≤ m.min ∧ m.max ≤ 30 := by
  apply c3_temp_hard_filter (fun a b => if a = b then 100 else 0) ["python"]
    [("english", 3)] ⟨3/10, 3/10, 1/5, 1/10, 1/10⟩ 10 30
  have hs : rank (fun a b => if a = b then 100 else 0) ["python"] [("english", 3)]
      ⟨3/10, 3/10, 1/5, 1/10, 1/10⟩ 10 30
      [{ name := "Warmland", languages := [{ name := "english", weight := 1 }],
         sectorScores := [("tech", 4/5)], tolerance := 4/5, costIndex := 2/5,
         climate := 1/10, monthlyAvgTemps := [{ min := 15, max := 25 }],
         description := "" },
       { name := "Coldland", languages := [{ name := "english", weight := 1 }],
         sectorScores := [("tech", 4/5)], tolerance := 4/5, costIndex := 2/5,
         climate := -1/2,
         monthlyAvgTemps := [{ min := -20, max := -5 }, { min := -20, max := -5 }],
         description := "" }] =
      [mkResult (fun a b => if a = b then 100 else 0) ["python"] [("english", 3)]
        (normalize_weights ⟨3/10, 3/10, 1/5, 1/10, 1/10⟩)
        { name := "Warmland", languages := [{ name := "english", weight := 1 }],
          sectorScores := [("tech", 4/5)], tolerance := 4/5, costIndex := 2/5,
          climate := 1/10, monthlyAvgTemps := [{ min := 15, max := 25 }],
          description := "" }] := by
    norm_num [rank, scored, fits_temp]
  rw [hs]
  exact List.mem_singleton.mpr rfl

lemma lang_scores_eq_matches {ul : List (String × ℤ)} {langs : List LangEntry}
    (hlow : ∀ p ∈ ul, lower p.1 = p.1) :
    lang_scores_of ul langs = lang_matches ul langs := by
  unfold lang_scores_of lang_matches
  induction ul with
  | nil => rfl
  | cons p t ih =>
    simp only [List.flatMap_cons]
    rw [ih (fun q hq => hlow q (List.mem_cons_of_mem p hq))]
    simp only [hlow p (List.mem_cons_self p t)]

/-- C4: the lang breakdown value equals the maximum, over case-insensitive
name matches between the user's languages and the country's language
entries, of `proficiency * entryWeight`, divided by 3.0 and rounded to 3
decimals, and it is 0.0 when nothing matches — for case-normalized user
language names with proficiencies in 0..3. -/
theorem c4_lang_breakdown (ratio : String → String → ℕ)
    (sk : List String) (ul : List (String × ℤ)) (c : Country) (w : Weights)
    (hlow : ∀ p ∈ ul, lower p.1 = p.1)
    (hprof : ∀ p ∈ ul, 0 ≤ p.2 ∧ p.2 ≤ 3) :
    (compute_match ratio sk ul c w).2.lang = lang_claimed ul c.languages := by
  show lang_value ul c.languages = lang_claimed ul c.languages
  simp only [lang_value, lang_claimed, lang_scores_eq_matches hlow]
  by_cases he : lang_matches ul c.languages = []
  · rw [he]
    simp [roundTo_zero]
  · rw [if_neg he, if_neg (by simpa [List.isEmpty_iff] using he)]

/-- C4 witness: a single exact match at proficiency 3 against weight 1.0
yields lang = 1.0 (and the no-match situation yields 0 by the same
theorem, since `lang_claimed` is 0 there by definition). -/
theorem c4_lang_breakdown_witness :
    (compute_match (fun a b => if a = b then 100 else 0) ["python"] [("english", 3)]
      { name := "Testland", languages := [{ name := "english", weight := 1 }],
        sectorScores := [("tech", 4/5)], tolerance := 4/5, costIndex := 2/5,
        climate := 1/10, monthlyAvgTemps := [{ min := 15, max := 25 }],
        description := "" }
      ⟨3/10, 3/10, 1/5, 1/10, 1/10⟩).2.lang =
      lang_claimed [("english", 3)] [{ name := "english", weight := 1 }] ∧
    lang_claimed [("english", 3)] [{ name := "english", weight := 1 }] = 1 := by
  constructor
  · exact c4_lang_breakdown (fun a b => if a = b then 100 else 0) ["python"]
      [("english", 3)]
      { name := "Testland", languages := [{ name := "english", weight := 1 }],
        sectorScores := [("tech", 4/5)], tolerance := 4/5, costIndex := 2/5,
        climate := 1/10, monthlyAvgTemps := [{ min := 15, max := 25 }],
        description := "" }
      ⟨3/10, 3/10, 1/5, 1/10, 1/10⟩ (by decide) (by decide)
  · have hm : lang_matches [("english", 3)] [{ name := "english", weight := 1 }] = [3] := by
      simp [lang_matches, show lower "english" = "english" from by decide]
    norm_num [lang_claimed, hm, listMax, roundTo, round_eq]

lemma foldl_max_zero_eq_listMax {m : List ℚ} (h : ∀ x ∈ m, 0 ≤ x) :
    m.foldl max 0 = listMax m := by
  cases m with
  | nil => rfl
  | cons a t =>
    have h0 : max 0 a = a := max_eq_right (h a (List.mem_cons_self a t))
    simp only [List.foldl_cons, h0, listMax]

lemma best_sector_score_eq_listMax (ratio : String → String → ℕ) (s : String)
    (sectors : List (String × ℚ)) (hs : ∀ p ∈ sectors, 0 ≤ p.2) :
    best_sector_score ratio s sectors =
      listMax (sectors.map (fun q => (ratio s q.1 : ℚ) / 100 * q.2)) := by
  have hmap : sectors.map (fun p => skill_score ratio s [p.1] * p.2) =
      sectors.map (fun q => (ratio s q.1 : ℚ) / 100 * q.2) :=
    List.map_congr_left (fun p _ => by rw [skill_score_single])
  unfold best_sector_score
  rw [← List.foldl_map, hmap, foldl_max_zero_eq_listMax]
  intro x hx
  rcases List.mem_map.mp hx with ⟨p, hp, rfl⟩
  exact mul_nonneg (by positivity) (hs p hp)

/-- C5: the skills breakdown value equals the average over user skills of
the maximum over `(sectorName, sectorWeight)` pairs of the fuzzy similarity
times the sector weight, rounded to 3 decimals; an empty skill list yields
0.0 with no fallback of any kind (for sector weights in their declared
non-negative domain). -/
theorem c5_skills_breakdown (ratio : String → String → ℕ)
    (sk : List String) (ul : List (String × ℤ)) (c : Country) (w : Weights)
    (hs : ∀ p ∈ c.sectorScores, 0 ≤ p.2) :
    (compute_match ratio sk ul c w).2.skills = skills_claimed ratio sk c.sectorScores := by
  show skills_value ratio sk c.sectorScores = skills_claimed ratio sk c.sectorScores
  simp only [skills_value, skills_claimed]
  have hmap : sk.map (fun s => best_sector_score ratio s c.sectorScores) =
      sk.map (fun s => listMax (c.sectorScores.map
        (fun q => (ratio s q.1 : ℚ) / 100 * q.2))) :=
    List.map_congr_left (fun s _ => best_sector_score_eq_listMax ratio s c.sectorScores hs)
  rw [hmap]
  cases sk with
  | nil => simp
  | cons s0 st =>
    simp only [List.map_cons, List.isEmpty_cons, List.length_map, List.length_cons,
      if_neg (List.cons_ne_nil s0 st)]
    rfl

/-- C5 witness: user skill list ["tech"] against sectors [("tech", 0.8)]
under an equality matcher gives skills = 0.8; the empty skill list gives 0
by the same theorem since `skills_claimed` is 0 there by definition. -/
theorem c5_skills_breakdown_witness :
    (compute_match (fun a b => if a = b then 100 else 0) ["tech"] [("english", 3)]
      { name := "Testland", languages := [{ name := "english", weight := 1 }],
        sectorScores := [("tech", 4/5)], tolerance := 4/5, costIndex := 2/5,
        climate := 1/10, monthlyAvgTemps := [{ min := 15, max := 25 }],
        description := "" }
      ⟨3/10, 3/10, 1/5, 1/10, 1/10⟩).2.skills =
      skills_claimed (fun a b => if a = b then 100 else 0) ["tech"] [("tech", 4/5)] ∧
    skills_claimed (fun a b => if a = b then 100 else 0) ["tech"] [("tech", 4/5)] = 4/5 := by
  constructor
  · exact c5_skills_breakdown (fun a b => if a = b then 100 else 0) ["tech"]
      [("english", 3)]
      { name := "Testland", languages := [{ name := "english", weight := 1 }],
        sectorScores := [("tech", 4/5)], tolerance := 4/5, costIndex := 2/5,
        climate := 1/10, monthlyAvgTemps := [{ min := 15, max := 25 }],
        description := "" }
      ⟨3/10, 3/10, 1/5, 1/10, 1/10⟩ (by norm_num)
  · norm_num [skills_claimed, listMax, roundTo, round_eq]

/-- C10: the lang breakdown value depends only on the multiset content of
the user language list: permuting the list leaves it unchanged, and so does
appending a duplicate of a pair already present, for every country
language list. -/
theorem c10_lang_value_set_invariant (ratio : String → String → ℕ)
    (sk : List String) (c : Country) (w : Weights)
    (ul₁ ul₂ : List (String × ℤ)) (p : String × ℤ) :
    (ul₁.Perm ul₂ →
      (compute_match ratio sk ul₁ c w).2.lang = (compute_match ratio sk ul₂ c w).2.lang) ∧
    (p ∈ ul₁ →
      (compute_match ratio sk (ul₁ ++ [p]) c w).2.lang =
        (compute_match ratio sk ul₁ c w).2.lang) := by
  constructor
  · intro hperm
    show lang_value ul₁ c.languages = lang_value ul₂ c.languages
    have hp : (lang_scores_of ul₁ c.languages).Perm (lang_scores_of ul₂ c.languages) :=
      hperm.flatMap_right _
    simp only [lang_value]
    by_cases he : lang_scores_of ul₁ c.languages = []
    · have hp' := hp
      rw [he] at hp'
      have he2 : lang_scores_of ul₂ c.languages = [] := hp'.nil_eq.symm
      rw [he, he2]
    · have he2 : lang_scores_of ul₂ c.languages ≠ [] := by
        intro h2
        rw [h2] at hp
        exact he hp.symm.nil_eq.symm
      rw [if_neg (by simpa [List.isEmpty_iff] using he),
        if_neg (by simpa [List.isEmpty_iff] using he2), listMax_perm hp]
  · intro hmem
    show lang_value (ul₁ ++ [p]) c.languages = lang_value ul₁ c.languages
    have happ : lang_scores_of (ul₁ ++ [p]) c.languages =
        lang_scores_of ul₁ c.languages ++ lang_scores_of [p] c.languages := by
      simp [lang_scores_of]
    have hsub : ∀ x ∈ lang_scores_of [p] c.languages,
        x ∈ lang_scores_of ul₁ c.languages := by
      intro x hx
      simp only [lang_scores_of, List.mem_flatMap] at hx ⊢
      obtain ⟨q, hq, hxq⟩ := hx
      have hqp : q = p := by simpa using hq
      subst hqp
      exact ⟨q, hmem, hxq⟩
    simp only [lang_value, happ]
    by_cases he : lang_scores_of ul₁ c.languages = []
    · have hp2 : lang_scores_of [p] c.languages = [] := by
        cases hl : lang_scores_of [p] c.languages with
        | nil => rfl
        | cons a t =>
          have := hsub a (by rw [hl]; exact List.mem_cons_self a t)
          rw [he] at this
          exact absurd this (List.not_mem_nil a)
      rw [he, hp2]
      rfl
    · rw [listMax_append hsub]
      have hne : (lang_scores_of ul₁ c.languages ++
          lang_scores_of [p] c.languages).isEmpty =
          (lang_scores_of ul₁ c.languages).isEmpty := by
        cases hls : lang_scores_of ul₁ c.languages with
        | nil => exact absurd hls he
        | cons a t => rfl
      rw [hne]

/-- C10 witness: swapping two user language entries, or appending a
duplicate of an existing entry, leaves the lang breakdown of a concrete
country unchanged. -/
theorem c10_lang_value_set_invariant_witness :
    ((compute_match (fun a b => if a = b then 100 else 0) ["python"]
        [("english", 3), ("german", 1)]
        { name := "Testland",
          languages := [{ name := "english", weight := 1 }, { name := "german", weight := 1 }],
          sectorScores := [("tech", 4/5)], tolerance := 4/5, costIndex := 2/5,
          climate := 1/10, monthlyAvgTemps := [{ min := 15, max := 25 }],
          description := "" }
        ⟨3/10, 3/10, 1/5, 1/10, 1/10⟩).2.lang =
      (compute_match (fun a b => if a = b then 100 else 0) ["python"]
        [("german", 1), ("english", 3)]
        { name := "Testland",
          languages := [{ name := "english", weight := 1 }, { name := "german", weight := 1 }],
          sectorScores := [("tech", 4/5)], tolerance := 4/5, costIndex := 2/5,
          climate := 1/10, monthlyAvgTemps := [{ min := 15, max := 25 }],
          description := "" }
        ⟨3/10, 3/10, 1/5, 1/10, 1/10⟩).2.lang) ∧
    ((compute_match (fun a b => if a = b then 100 else 0) ["python"]
        ([("english", 3), ("german", 1)] ++ [("english", 3)])
        { name := "Testland",
          languages := [{ name := "english", weight := 1 }, { name := "german", weight := 1 }],
          sectorScores := [("tech", 4/5)], tolerance := 4/5, costIndex := 2/5,
          climate := 1/10, monthlyAvgTemps := [{ min := 15, max := 25 }],
          description := "" }
        ⟨3/10, 3/10, 1/5, 1/10, 1/10⟩).2.lang =
      (compute_match (fun a b => if a = b then 100 else 0) ["python"]
        [("english", 3), ("german", 1)]
        { name := "Testland",
          languages := [{ name := "english", weight := 1 }, { name := "german", weight := 1 }],
          sectorScores := [("tech", 4/5)], tolerance := 4/5, costIndex := 2/5,
          climate := 1/10, monthlyAvgTemps := [{ min := 15, max := 25 }],
          description := "" }
        ⟨3/10, 3/10, 1/5, 1/10, 1/10⟩).2.lang) := by
  constructor
  · exact (c10_lang_value_set_invariant (fun a b => if a = b then 100 else 0) ["python"]
      { name := "Testland",
        languages := [{ name := "english", weight := 1 }, { name := "german", weight := 1 }],
        sectorScores := [("tech", 4/5)], tolerance := 4/5, costIndex := 2/5,
        climate := 1/10, monthlyAvgTemps := [{ min := 15, max := 25 }],
        description := "" }
      ⟨3/10, 3/10, 1/5, 1/10, 1/10⟩ [("english", 3), ("german", 1)]
      [("german", 1), ("english", 3)] ("english", 3)).1 (List.Perm.swap _ _ _)
  · exact (c10_lang_value_set_invariant (fun a b => if a = b then 100 else 0) ["python"]
      { name := "Testland",
        languages := [{ name := "english", weight := 1 }, { name := "german", weight := 1 }],
        sectorScores := [("tech", 4/5)], tolerance := 4/5, costIndex := 2/5,
        climate := 1/10, monthlyAvgTemps := [{ min := 15, max := 25 }],
        description := "" }
      ⟨3/10, 3/10, 1/5, 1/10, 1/10⟩ [("english", 3), ("german", 1)]
      [("german", 1), ("english", 3)] ("english", 3)).2
      (List.mem_cons_self _ _)

/-- C2 (amended): with every country field in its declared domain —
tolerance in [0,1], costIndex in [0,1], climate in [-1,1], language entry
weights in [0,1] (the claim's "arbitrary floats" is refuted by
`c2_counterexample`), sector weights in [0,1] — user proficiencies in 0..3,
non-negative user weights, and a similarity matcher honouring its 0..100
contract, `compute_match` returns a final score in [0,100] and all five
breakdown values in [0,1]. -/
theorem c2_score_and_breakdown_in_range (ratio : String → String → ℕ)
    (sk : List String) (ul : List (String × ℤ)) (c : Country) (w : Weights)
    (hr : ∀ a b, ratio a b ≤ 100)
    (htol : 0 ≤ c.tolerance ∧ c.tolerance ≤ 1)
    (hcost : 0 ≤ c.costIndex ∧ c.costIndex ≤ 1)
    (hclim : -1 ≤ c.climate ∧ c.climate ≤ 1)
    (hlang : ∀ e ∈ c.languages, 0 ≤ e.weight ∧ e.weight ≤ 1)
    (hsec : ∀ p ∈ c.sectorScores, 0 ≤ p.2 ∧ p.2 ≤ 1)
    (hprof : ∀ p ∈ ul, 0 ≤ p.2 ∧ p.2 ≤ 3)
    (hw : 0 ≤ w.skills ∧ 0 ≤ w.lang ∧ 0 ≤ w.tolerance ∧ 0 ≤ w.cost ∧ 0 ≤ w.climate) :
    (0 ≤ (compute_match ratio sk ul c w).1 ∧ (compute_match ratio sk ul c w).1 ≤ 100) ∧
    (0 ≤ (compute_match ratio sk ul c w).2.skills ∧
      (compute_match ratio sk ul c w).2.skills ≤ 1) ∧
    (0 ≤ (compute_match ratio sk ul c w).2.lang ∧
      (compute_match ratio sk ul c w).2.lang ≤ 1) ∧
    (0 ≤ (compute_match ratio sk ul c w).2.tolerance ∧
      (compute_match ratio sk ul c w).2.tolerance ≤ 1) ∧
    (0 ≤ (compute_match ratio sk ul c w).2.cost ∧
      (compute_match ratio sk ul c w).2.cost ≤ 1) ∧
    (0 ≤ (compute_match ratio sk ul c w).2.climate ∧
      (compute_match ratio sk ul c w).2.climate ≤ 1) := by
  have hskills := skills_value_bounds ratio sk c.sectorScores hr hsec
  have hlangv := lang_value_bounds ul c.languages hlang hprof
  have htolv : 0 ≤ roundTo 3 c.tolerance ∧ roundTo 3 c.tolerance ≤ 1 := by
    constructor
    · calc (0 : ℚ) = ((0 : ℤ) : ℚ) := by norm_num
        _ ≤ roundTo 3 c.tolerance := roundTo_int_le (by exact_mod_cast htol.1)
    · calc roundTo 3 c.tolerance ≤ ((1 : ℤ) : ℚ) := roundTo_le_int (by exact_mod_cast htol.2)
        _ = 1 := by norm_num
  have hcostv : 0 ≤ roundTo 3 (1 - c.costIndex) ∧ roundTo 3 (1 - c.costIndex) ≤ 1 := by
    constructor
    · calc (0 : ℚ) = ((0 : ℤ) : ℚ) := by norm_num
        _ ≤ roundTo 3 (1 - c.costIndex) := roundTo_int_le (by push_cast; linarith [hcost.2])
    · calc roundTo 3 (1 - c.costIndex) ≤ ((1 : ℤ) : ℚ) :=
          roundTo_le_int (by push_cast; linarith [hcost.1])
        _ = 1 := by norm_num
  have hclimv : 0 ≤ roundTo 3 ((c.climate + 1) / 2) ∧ roundTo 3 ((c.climate + 1) / 2) ≤ 1 := by
    constructor
    · calc (0 : ℚ) = ((0 : ℤ) : ℚ) := by norm_num
        _ ≤ roundTo 3 ((c.climate + 1) / 2) :=
          roundTo_int_le (by push_cast; linarith [hclim.1])
    · calc roundTo 3 ((c.climate + 1) / 2) ≤ ((1 : ℤ) : ℚ) :=
          roundTo_le_int (by push_cast; linarith [hclim.2])
        _ = 1 := by norm_num
  have hsnd : (compute_match ratio sk ul c w).2 =
      { skills := skills_value ratio sk c.sectorScores
        lang := lang_value ul c.languages
        tolerance := roundTo 3 c.tolerance
        cost := roundTo 3 (1 - c.costIndex)
        climate := roundTo 3 ((c.climate + 1) / 2) } := rfl
  refine ⟨?_, ?_, ?_, ?_, ?_, ?_⟩
  · have hws : 0 ≤ weighted_total w (compute_match ratio sk ul c w).2 := by
      rw [hsnd]
      unfold weighted_total
      have g1 := mul_nonneg hw.1 hskills.1
      have g2 := mul_nonneg hw.2.1 hlangv.1
      have g3 := mul_nonneg hw.2.2.1 htolv.1
      have g4 := mul_nonneg hw.2.2.2.1 hcostv.1
      have g5 := mul_nonneg hw.2.2.2.2 hclimv.1
      dsimp only
      linarith
    have hfst : (compute_match ratio sk ul c w).1 =
        roundTo 2 (min (weighted_total w (compute_match ratio sk ul c w).2) 1 * 100) := rfl
    rw [hfst]
    have hmin0 : 0 ≤ min (weighted_total w (compute_match ratio sk ul c w).2) 1 :=
      le_min hws (by norm_num)
    have hmin1 : min (weighted_total w (compute_match ratio sk ul c w).2) 1 ≤ 1 :=
      min_le_right _ _
    constructor
    · calc (0 : ℚ) = ((0 : ℤ) : ℚ) := by norm_num
        _ ≤ roundTo 2 (min (weighted_total w (compute_match ratio sk ul c w).2) 1 * 100) :=
          roundTo_int_le (by push_cast; positivity)
    · calc roundTo 2 (min (weighted_total w (compute_match ratio sk ul c w).2) 1 * 100) ≤
          ((100 : ℤ) : ℚ) := roundTo_le_int (by push_cast; linarith)
        _ = 100 := by norm_num
  · rw [hsnd]
    exact hskills
  · rw [hsnd]
    exact hlangv
  · rw [hsnd]
    exact htolv
  · rw [hsnd]
    exact hcostv
  · rw [hsnd]
    exact hclimv

/-- C2 witness: a fully in-range country and user give a final score in
[0,100] and breakdown values in [0,1] at a concrete input. -/
theorem c2_score_and_breakdown_in_range_witness :
    (0 ≤ (compute_match (fun a b => if a = b then 100 else 0) ["tech"] [("english", 3)]
      { name := "Testland",
        languages := [{ name := "english", weight := 1 }, { name := "german", weight := 1 }],
        sectorScores := [("tech", 4/5)], tolerance := 4/5, costIndex := 2/5,
        climate := 1/10, monthlyAvgTemps := [{ min := 15, max := 25 }],
        description := "" }
      ⟨3/10, 3/10, 1/5, 1/10, 1/10⟩).1 ∧
     (compute_match (fun a b => if a = b then 100 else 0) ["tech"] [("english", 3)]
      { name := "Testland",
        languages := [{ name := "english", weight := 1 }, { name := "german", weight := 1 }],
        sectorScores := [("tech", 4/5)], tolerance := 4/5, costIndex := 2/5,
        climate := 1/10, monthlyAvgTemps := [{ min := 15, max := 25 }],
        description := "" }
      ⟨3/10, 3/10, 1/5, 1/10, 1/10⟩).1 ≤ 100) ∧
    (0 ≤ (compute_match (fun a b => if a = b then 100 else 0) ["tech"] [("english", 3)]
      { name := "Testland",
        languages := [{ name := "english", weight := 1 }, { name := "german", weight := 1 }],
        sectorScores := [("tech", 4/5)], tolerance := 4/5, costIndex := 2/5,
        climate := 1/10, monthlyAvgTemps := [{ min := 15, max := 25 }],
        description := "" }
      ⟨3/10, 3/10, 1/5, 1/10, 1/10⟩).2.skills ∧
     (compute_match (fun a b => if a = b then 100 else 0) ["tech"] [("english", 3)]
      { name := "Testland",
        languages := [{ name := "english", weight := 1 }, { name := "german", weight := 1 }],
        sectorScores := [("tech", 4/5)], tolerance := 4/5, costIndex := 2/5,
        climate := 1/10, monthlyAvgTemps := [{ min := 15, max := 25 }],
        description := "" }
      ⟨3/10, 3/10, 1/5, 1/10, 1/10⟩).2.skills ≤ 1) ∧
    (0 ≤ (compute_match (fun a b => if a = b then 100 else 0) ["tech"] [("english", 3)]
      { name := "Testland",
        languages := [{ name := "english", weight := 1 }, { name := "german", weight := 1 }],
        sectorScores := [("tech", 4/5)], tolerance := 4/5, costIndex := 2/5,
        climate := 1/10, monthlyAvgTemps := [{ min := 15, max := 25 }],
        description := "" }
      ⟨3/10, 3/10, 1/5, 1/10, 1/10⟩).2.lang ∧
     (compute_match (fun a b => if a = b then 100 else 0) ["tech"] [("english", 3)]
      { name := "Testland",
        languages := [{ name := "english", weight := 1 }, { name := "german", weight := 1 }],
        sectorScores := [("tech", 4/5)], tolerance := 4/5, costIndex := 2/5,
        climate := 1/10, monthlyAvgTemps := [{ min := 15, max := 25 }],
        description := "" }
      ⟨3/10, 3/10, 1/5, 1/10, 1/10⟩).2.lang ≤ 1) ∧
    (0 ≤ (compute_match (fun a b => if a = b then 100 else 0) ["tech"] [("english", 3)]
      { name := "Testland",
        languages := [{ name := "english", weight := 1 }, { name := "german", weight := 1 }],
        sectorScores := [("tech", 4/5)], tolerance := 4/5, costIndex := 2/5,
        climate := 1/10, monthlyAvgTemps := [{ min := 15, max := 25 }],
        description := "" }
      ⟨3/10, 3/10, 1/5, 1/10, 1/10⟩).2.tolerance ∧
     (compute_match (fun a b => if a = b then 100 else 0) ["tech"] [("english", 3)]
      { name := "Testland",
        languages := [{ name := "english", weight := 1 }, { name := "german", weight := 1 }],
        sectorScores := [("tech", 4/5)], tolerance := 4/5, costIndex := 2/5,
        climate := 1/10, monthlyAvgTemps := [{ min := 15, max := 25 }],
        description := "" }
      ⟨3/10, 3/10, 1/5, 1/10, 1/10⟩).2.tolerance ≤ 1) ∧
    (0 ≤ (compute_match (fun a b => if a = b then 100 else 0) ["tech"] [("english", 3)]
      { name := "Testland",
        languages := [{ name := "english", weight := 1 }, { name := "german", weight := 1 }],
        sectorScores := [("tech", 4/5)], tolerance := 4/5, costIndex := 2/5,
        climate := 1/10, monthlyAvgTemps := [{ min := 15, max := 25 }],
        description := "" }
      ⟨3/10, 3/10, 1/5, 1/10, 1/10⟩).2.cost ∧
     (compute_match (fun a b => if a = b then 100 else 0) ["tech"] [("english", 3)]
      { name := "Testland",
        languages := [{ name := "english", weight := 1 }, { name := "german", weight := 1 }],
        sectorScores := [("tech", 4/5)], tolerance := 4/5, costIndex := 2/5,
        climate := 1/10, monthlyAvgTemps := [{ min := 15, max := 25 }],
        description := "" }
      ⟨3/10, 3/10, 1/5, 1/10, 1/10⟩).2.cost ≤ 1) ∧
    (0 ≤ (compute_match (fun a b => if a = b then 100 else 0) ["tech"] [("english", 3)]
      { name := "Testland",
        languages := [{ name := "english", weight := 1 }, { name := "german", weight := 1 }],
        sectorScores := [("tech", 4/5)], tolerance := 4/5, costIndex := 2/5,
        climate := 1/10, monthlyAvgTemps := [{ min := 15, max := 25 }],
        description := "" }
      ⟨3/10, 3/10, 1/5, 1/10, 1/10⟩).2.climate ∧
     (compute_match (fun a b => if a = b then 100 else 0) ["tech"] [("english", 3)]
      { name := "Testland",
        languages := [{ name := "english", weight := 1 }, { name := "german", weight := 1 }],
        sectorScores := [("tech", 4/5)], tolerance := 4/5, costIndex := 2/5,
        climate := 1/10, monthlyAvgTemps := [{ min := 15, max := 25 }],
        description := "" }
      ⟨3/10, 3/10, 1/5, 1/10, 1/10⟩).2.climate ≤ 1) :=
  c2_score_and_breakdown_in_range (fun a b => if a = b then 100 else 0) ["tech"]
    [("english", 3)]
    { name := "Testland",
      languages := [{ name := "english", weight := 1 }, { name := "german", weight := 1 }],
      sectorScores := [("tech", 4/5)], tolerance := 4/5, costIndex := 2/5,
      climate := 1/10, monthlyAvgTemps := [{ min := 15, max := 25 }],
      description := "" }
    ⟨3/10, 3/10, 1/5, 1/10, 1/10⟩
    (fun a b => by dsimp only; split <;> omega)
    (by norm_num) (by norm_num) (by norm_num)
    (by intro e he; fin_cases he <;> norm_num)
    (by intro p hp; fin_cases hp <;> norm_num)
    (by intro p hp; fin_cases hp <;> norm_num)
    (by norm_num)

/-- C2 counterexample: the claim allows "language weights arbitrary
floats"; with a language entry of weight 2.0 and a matching proficiency of
3, the lang breakdown value is 2.0, outside [0,1], refuting the claim as
stated. -/
theorem c2_counterexample :
    (compute_match (fun a b => if a = b then 100 else 0) [] [("english", 3)]
      { name := "Weightland", languages := [{ name := "english", weight := 2 }],
        sectorScores := [], tolerance := 0, costIndex := 0, climate := 0,
        monthlyAvgTemps := [{ min := 15, max := 25 }], description := "" }
      ⟨3/10, 3/10, 1/5, 1/10, 1/10⟩).2.lang = 2 ∧
    ¬ ((compute_match (fun a b => if a = b then 100 else 0) [] [("english", 3)]
      { name := "Weightland", languages := [{ name := "english", weight := 2 }],
        sectorScores := [], tolerance := 0, costIndex := 0, climate := 0,
        monthlyAvgTemps := [{ min := 15, max := 25 }], description := "" }
      ⟨3/10, 3/10, 1/5, 1/10, 1/10⟩).2.lang ≤ 1) := by
  have h : (compute_match (fun a b => if a = b then 100 else 0) [] [("english", 3)]
      { name := "Weightland", languages := [{ name := "english", weight := 2 }],
        sectorScores := [], tolerance := 0, costIndex := 0, climate := 0,
        monthlyAvgTemps := [{ min := 15, max := 25 }], description := "" }
      ⟨3/10, 3/10, 1/5, 1/10, 1/10⟩).2.lang = 2 := by
    have hm : lang_scores_of [("english", 3)] [{ name := "english", weight := 2 }] = [6] := by
      simp [lang_scores_of, show lower "english" = "english" from by decide]
      norm_num
    show lang_value [("english", 3)] [{ name := "english", weight := 2 }] = 2
    norm_num [lang_value, hm, listMax, roundTo, round_eq]
  refine ⟨h, ?_⟩
  rw [h]
  norm_num

/-- C8: the claim says a weight map with a negative weight must fail fast
with a validation error before scoring. The code has no such validation
anywhere: with weights (-1, 0.3, 0.2, 0.1, 0.1) (raw sum -0.3, so left
unscaled) the engine silently scores the catalog and even returns a
negative final score of -50. -/
theorem c8_negative_weights_scored_silently :
    rank (fun a b => if a = b then 100 else 0) ["tech"] [("english", 3)]
      ⟨-1, 3/10, 1/5, 1/10, 1/10⟩ (-10) 40
      [{ name := "Negland", languages := [{ name := "english", weight := 1 }],
         sectorScores := [("tech", 1)], tolerance := 1/2, costIndex := 1/2,
         climate := 0, monthlyAvgTemps := [{ min := 15, max := 25 }],
         description := "" }] =
    [{ name := "Negland", score := -50,
       breakdown := { skills := 1, lang := 1, tolerance := 1/2, cost := 1/2, climate := 1/2 },
       description := "" }] := by
  have hb : best_sector_score (fun a b => if a = b then 100 else 0) "tech" [("tech", 1)] = 1 := by
    norm_num [best_sector_score, skill_score]
  have hm : lang_scores_of [("english", 3)] [{ name := "english", weight := 1 }] = [3] := by
    simp [lang_scores_of, show lower "english" = "english" from by decide]
  norm_num [rank, scored, mkResult, normalize_weights, total_weight, fits_temp,
    compute_match, skills_value, lang_value, hb, hm, listMax, roundTo, round_eq,
    weighted_total, MatchResult.mk.injEq, Breakdown.mk.injEq]

/-- C5 counterexample: the claim quantifies over every `sectorScores`
mapping, but for a negative sector weight the code's accumulation, which
starts at 0, differs from the claimed plain maximum: with the single
sector ("x", -1) and matching skill "x", the code yields skills = 0 while
the claimed average-of-maxima formula yields -1. -/
theorem c5_counterexample :
    (compute_match (fun a b => if a = b then 100 else 0) ["x"] []
      { name := "Negsector", languages := [], sectorScores := [("x", -1)],
        tolerance := 0, costIndex := 0, climate := 0,
        monthlyAvgTemps := [], description := "" }
      ⟨3/10, 3/10, 1/5, 1/10, 1/10⟩).2.skills = 0 ∧
    skills_claimed (fun a b => if a = b then 100 else 0) ["x"] [("x", -1)] = -1 ∧
    (compute_match (fun a b => if a = b then 100 else 0) ["x"] []
      { name := "Negsector", languages := [], sectorScores := [("x", -1)],
        tolerance := 0, costIndex := 0, climate := 0,
        monthlyAvgTemps := [], description := "" }
      ⟨3/10, 3/10, 1/5, 1/10, 1/10⟩).2.skills ≠
      skills_claimed (fun a b => if a = b then 100 else 0) ["x"] [("x", -1)] := by
  have h1 : (compute_match (fun a b => if a = b then 100 else 0) ["x"] []
      { name := "Negsector", languages := [], sectorScores := [("x", -1)],
        tolerance := 0, costIndex := 0, climate := 0,
        monthlyAvgTemps := [], description := "" }
      ⟨3/10, 3/10, 1/5, 1/10, 1/10⟩).2.skills = 0 := by
    show skills_value (fun a b => if a = b then 100 else 0) ["x"] [("x", -1)] = 0
    norm_num [skills_value, best_sector_score, skill_score, roundTo, round_eq]
  have h2 : skills_claimed (fun a b => if a = b then 100 else 0) ["x"] [("x", -1)] = -1 := by
    norm_num [skills_claimed, listMax, roundTo, round_eq]
  refine ⟨h1, h2, ?_⟩
  rw [h1, h2]
  norm_num
